import Mathlib

/-!
Verification of the mutation-network widget: the CSV/TSV result parser and
graph builder (`parseResultCsv` in mutation-network.service.ts) and the
request orchestrator (`onStart` in the mutation-network component).

JavaScript strings are modelled as `List Char`; each JS string operation the
code uses (`split`, `trim`, `includes`, `toLowerCase`, `parseInt`, the
edge-quote-stripping regex replace) gets a faithful Lean counterpart.
-/

/-- One step in the mutation path (backend CSV row): interface MutationPathStep. -/
structure MutationPathStep where
  fromSequence : String
  toSequence : String
  transitionCost : Int
deriving DecidableEq, Repr

/-- Graph node for visualization: interface MutationNetworkNode. -/
structure MutationNetworkNode where
  id : String
  sequence : String
  index : Nat
deriving DecidableEq, Repr

/-- Graph link for visualization: interface MutationNetworkLink. -/
structure MutationNetworkLink where
  source : String
  target : String
  cost : Int
deriving DecidableEq, Repr

/-- Parsed path and graph data: interface MutationNetworkGraphData. -/
structure MutationNetworkGraphData where
  steps : List MutationPathStep
  nodes : List MutationNetworkNode
  links : List MutationNetworkLink
deriving DecidableEq, Repr

/-- JS whitespace test used by String.prototype.trim (ASCII fragment). -/
def isJsSpace (c : Char) : Bool := c.isWhitespace

/-- JS String.prototype.trim on a char-list string. -/
def jsTrim (l : List Char) : List Char :=
  ((l.dropWhile isJsSpace).reverse.dropWhile isJsSpace).reverse

/-- JS String.prototype.split with a single-character separator: every
occurrence of `sep` splits, yielding occurrences+1 (possibly empty) parts. -/
def jsSplit (sep : Char) : List Char → List (List Char)
  | [] => [[]]
  | c :: cs =>
    if c = sep then [] :: jsSplit sep cs
    else
      match jsSplit sep cs with
      | [] => [[c]]
      | p :: ps => (c :: p) :: ps

/-- The regex replace `^"|"$` with global flag: removes at most one leading
and one trailing double-quote character. -/
def stripEdgeQuotes (l : List Char) : List Char :=
  let l1 := match l with
    | '"' :: rest => rest
    | _ => l
  if l1.getLast? = some '"' then l1.dropLast else l1

/-- Decimal value of a digit run, as accumulated by parseInt. -/
def digitsVal (ds : List Char) : Nat :=
  ds.foldl (fun acc c => acc * 10 + (c.toNat - '0'.toNat)) 0

/-- JS parseInt(s, 10): skip leading whitespace, optional sign, then the
longest digit run; NaN (here `none`) when no digit follows. -/
def jsParseInt (l : List Char) : Option Int :=
  let l1 := l.dropWhile isJsSpace
  let signAndRest : Bool × List Char :=
    match l1 with
    | '-' :: rest => (true, rest)
    | '+' :: rest => (false, rest)
    | _ => (false, l1)
  let ds := signAndRest.2.takeWhile Char.isDigit
  if ds = [] then none
  else some (if signAndRest.1 then -(digitsVal ds : Int) else (digitsVal ds : Int))

/-- The expression `parseInt(x, 10) || 0`: NaN collapses to 0. -/
def jsParseIntOr0 (l : List Char) : Int :=
  match jsParseInt l with
  | some n => n
  | none => 0

/-- The inner `parseRow` tokenizer of parseResultCsv: a `"` toggles the
in-quotes state (and is dropped), the separator ends a field only when not
inside quotes, every field is trimmed. -/
def parseRowAux (sep : Char) : List Char → Bool → List Char → List (List Char) → List (List Char)
  | [], _, current, result => result ++ [jsTrim current]
  | c :: cs, inQuotes, current, result =>
    if c = '"' then parseRowAux sep cs (!inQuotes) current result
    else if c = sep ∧ inQuotes = false then
      parseRowAux sep cs inQuotes [] (result ++ [jsTrim current])
    else parseRowAux sep cs inQuotes (current ++ [c]) result

/-- parseRow(line) from parseResultCsv. -/
def parseRow (sep : Char) (line : List Char) : List (List Char) :=
  parseRowAux sep line false [] []

/-- `content.split('\n').filter(line => line.trim())`. -/
def nonBlankLines (content : String) : List (List Char) :=
  (jsSplit '\n' content.toList).filter (fun l => !(jsTrim l == []))

/-- `headers.findIndex(h => h === name)`, returning `none` for -1. -/
def findIdxAux (name : List Char) : List (List Char) → Option Nat
  | [] => none
  | h :: rest => if h = name then some 0 else (findIdxAux name rest).map (· + 1)

/-- `headers.findIndex(h => h === name) >= 0 ? headers.findIndex(...) : fb`. -/
def resolveIdx (headers : List (List Char)) (name : List Char) (fb : Nat) : Nat :=
  match findIdxAux name headers with
  | some i => i
  | none => fb

/-- Header configuration of parseResultCsv: separator auto-detection from the
header line (tab if present, else comma) and the three resolved column
indices with positional fallbacks 0, 1, 2. Header tokens are quote-stripped,
trimmed and lower-cased before matching. -/
def headerCfg (content : String) : Char × Nat × Nat × Nat :=
  let header := (nonBlankLines content).getD 0 []
  let sep := if '\t' ∈ header then '\t' else ','
  let headers := (jsSplit sep header).map (fun h => (jsTrim (stripEdgeQuotes h)).map Char.toLower)
  (sep,
   resolveIdx headers ("from_sequence".toList) 0,
   resolveIdx headers ("to_sequence".toList) 1,
   resolveIdx headers ("transition_cost".toList) 2)

/-- The per-data-row body of the parseResultCsv loop: tokenize the row, read
the from/to/cost columns (missing columns default to '' and '0'), and keep
the step only when both sequences are non-empty. -/
def rowStep (sep : Char) (fi ti ci : Nat) (line : List Char) : Option MutationPathStep :=
  let cols := parseRow sep line
  let fromSeq := cols.getD fi []
  let toSeq := cols.getD ti []
  let cost := jsParseIntOr0 (cols.getD ci ['0'])
  if fromSeq ≠ [] ∧ toSeq ≠ [] then
    some ⟨String.mk fromSeq, String.mk toSeq, cost⟩
  else none

/-- The row function of a given input text: `rowStep` at that text's
separator and resolved column indices. -/
def rowStepOf (content : String) : List Char → Option MutationPathStep :=
  rowStep (headerCfg content).1 (headerCfg content).2.1 (headerCfg content).2.2.1 (headerCfg content).2.2.2

/-- The `for (let i = 1; ...)` loop of parseResultCsv: pushes each kept step
onto the accumulator in row order. -/
def collectSteps (f : List Char → Option MutationPathStep) :
    List (List Char) → List MutationPathStep → List MutationPathStep
  | [], acc => acc
  | l :: ls, acc =>
    match f l with
    | some s => collectSteps f ls (acc ++ [s])
    | none => collectSteps f ls acc

/-- Graph-builder state: nodes array, `seen` set (insertion list), `idx` counter. -/
structure BuildSt where
  nodes : List MutationNetworkNode
  seen : List String
  idx : Nat
deriving DecidableEq, Repr

/-- `if (!seen.has(s)) { nodes.push({id: s, sequence: s, index: idx++}); seen.add(s); }`. -/
def insertNode (st : BuildSt) (s : String) : BuildSt :=
  if s ∈ st.seen then st
  else ⟨st.nodes ++ [⟨s, s, st.idx⟩], st.seen ++ [s], st.idx + 1⟩

/-- The `for (const s of steps)` loop: discover each step's toSequence, and
push one link per step. -/
def buildLoop : List MutationPathStep → BuildSt → List MutationNetworkLink → BuildSt × List MutationNetworkLink
  | [], st, links => (st, links)
  | s :: rest, st, links =>
    buildLoop rest (insertNode st s.toSequence)
      (links ++ [⟨s.fromSequence, s.toSequence, s.transitionCost⟩])

/-- The graph-building part of parseResultCsv: seed the node set with the
first step's fromSequence (when steps are non-empty), then run the loop. -/
def buildGraph (steps : List MutationPathStep) : List MutationNetworkNode × List MutationNetworkLink :=
  let st0 : BuildSt := ⟨[], [], 0⟩
  let st1 :=
    match steps with
    | [] => st0
    | first :: _ => insertNode st0 first.fromSequence
  let r := buildLoop steps st1 []
  (r.1.nodes, r.2)

/-- parseResultCsv(content) from MutationNetworkService. -/
def parseResultCsv (content : String) : MutationNetworkGraphData :=
  if (nonBlankLines content).length < 2 then ⟨[], [], []⟩
  else
    let steps := collectSteps (rowStepOf content) ((nonBlankLines content).drop 1) []
    ⟨steps, (buildGraph steps).1, (buildGraph steps).2⟩

/-- Claim C1: parsing the two-step example text returns steps
[(AAAA,AAAT,1),(AAAT,AATT,2)], nodes [AAAA(0),AAAT(1),AATT(2)] and links
[(AAAA→AAAT,1),(AAAT→AATT,2)] in exactly that order. -/
theorem C1_example_parse :
    parseResultCsv ("From_Sequence,To_Sequence,Transition_Cost\nAAAA,AAAT,1\nAAAT,AATT,2")
      = ⟨[⟨"AAAA", "AAAT", 1⟩, ⟨"AAAT", "AATT", 2⟩],
         [⟨"AAAA", "AAAA", 0⟩, ⟨"AAAT", "AAAT", 1⟩, ⟨"AATT", "AATT", 2⟩],
         [⟨"AAAA", "AAAT", 1⟩, ⟨"AAAT", "AATT", 2⟩]⟩ := by
  decide

/-- Claim C3: the row tokenizer toggles an in-quotes state on `"`, splits on
the delimiter only outside quotes, and supports no escaped-quote doubling:
the quoted field of row `"AC,GT",ACGT,5` is not split (full parse yields
from=AC,GT to=ACGT cost=5), and a doubled quote collapses rather than
escaping (`"a""b",c` tokenizes to [ab, c], not [a"b, c]). -/
theorem C3_quoted_fields :
    parseRow ',' (("\"AC,GT\",ACGT,5").toList)
        = [("AC,GT").toList, ("ACGT").toList, ("5").toList]
    ∧ (parseResultCsv ("From_Sequence,To_Sequence,Transition_Cost\n\"AC,GT\",ACGT,5")).steps
        = [⟨"AC,GT", "ACGT", 5⟩]
    ∧ parseRow ',' (("\"a\"\"b\",c").toList) = [("ab").toList, ("c").toList] := by
  decide

/-! ## Loop characterization lemmas -/

theorem collectSteps_eq_filterMap (f : List Char → Option MutationPathStep)
    (ls : List (List Char)) (acc : List MutationPathStep) :
    collectSteps f ls acc = acc ++ ls.filterMap f := by
  induction ls generalizing acc with
  | nil => simp [collectSteps]
  | cons l ls ih =>
    cases h : f l with
    | none => simp [collectSteps, h, ih]
    | some s => simp [collectSteps, h, ih]

theorem length_filterMap_sub {α β : Type} (f : α → Option β) (ls : List α) :
    (ls.filterMap f).length = ls.length - ls.countP (fun l => (f l).isNone) := by
  induction ls with
  | nil => simp
  | cons l ls ih =>
    cases h : f l with
    | none => simp [List.filterMap_cons, h, ih, List.countP_cons]
    | some s =>
      have hle : ls.countP (fun l => (f l).isNone) ≤ ls.length :=
        List.countP_le_length _
      simp only [List.filterMap_cons, h, List.length_cons, ih, List.countP_cons,
        Option.isNone_some, if_neg (by simp : ¬ (false = true))]
      omega

/-- Claim C2: the parser returns exactly the steps of the rows whose from/to
fields are non-empty after trimming, in input row order, and the step count
is the data-row count minus the number of dropped rows. -/
theorem C2_row_filter (content : String)
    (h2 : 2 ≤ (nonBlankLines content).length) :
    (parseResultCsv content).steps
        = ((nonBlankLines content).drop 1).filterMap (rowStepOf content)
    ∧ (parseResultCsv content).steps.length
        = ((nonBlankLines content).drop 1).length
          - ((nonBlankLines content).drop 1).countP (fun l => ((rowStepOf content) l).isNone) := by
  have hlt : ¬ (nonBlankLines content).length < 2 := by omega
  have hsteps : (parseResultCsv content).steps
      = ((nonBlankLines content).drop 1).filterMap (rowStepOf content) := by
    unfold parseResultCsv
    rw [if_neg hlt]
    calc (collectSteps (rowStepOf content) ((nonBlankLines content).drop 1) [] :
            List MutationPathStep)
        = [] ++ ((nonBlankLines content).drop 1).filterMap (rowStepOf content) :=
          collectSteps_eq_filterMap _ _ []
      _ = ((nonBlankLines content).drop 1).filterMap (rowStepOf content) := by
          rw [List.nil_append]
  exact ⟨hsteps, by rw [hsteps]; exact length_filterMap_sub _ _⟩

/-- Witness for C2 at the two-step example text. -/
theorem C2_row_filter_witness :
    (parseResultCsv ("From_Sequence,To_Sequence,Transition_Cost\nAAAA,AAAT,1\nAAAT,AATT,2")).steps
        = ((nonBlankLines ("From_Sequence,To_Sequence,Transition_Cost\nAAAA,AAAT,1\nAAAT,AATT,2")).drop 1).filterMap
            (rowStepOf ("From_Sequence,To_Sequence,Transition_Cost\nAAAA,AAAT,1\nAAAT,AATT,2"))
    ∧ (parseResultCsv ("From_Sequence,To_Sequence,Transition_Cost\nAAAA,AAAT,1\nAAAT,AATT,2")).steps.length
        = ((nonBlankLines ("From_Sequence,To_Sequence,Transition_Cost\nAAAA,AAAT,1\nAAAT,AATT,2")).drop 1).length
          - ((nonBlankLines ("From_Sequence,To_Sequence,Transition_Cost\nAAAA,AAAT,1\nAAAT,AATT,2")).drop 1).countP
              (fun l => ((rowStepOf ("From_Sequence,To_Sequence,Transition_Cost\nAAAA,AAAT,1\nAAAT,AATT,2")) l).isNone) :=
  C2_row_filter ("From_Sequence,To_Sequence,Transition_Cost\nAAAA,AAAT,1\nAAAT,AATT,2") (by decide)

/-! ## Graph builder: spec-side node discovery -/

/-- Link emitted for a step. -/
def stepLink (s : MutationPathStep) : MutationNetworkLink :=
  ⟨s.fromSequence, s.toSequence, s.transitionCost⟩

/-- Modelled from the spec: insert a sequence at the end unless already seen. -/
def specInsertSeq (acc : List String) (s : String) : List String :=
  if s ∈ acc then acc else acc ++ [s]

/-- Modelled from the spec: node discovery order - the first step's
fromSequence first (when steps are non-empty), then every step's toSequence
in step order if not already seen. -/
def specDiscovery (steps : List MutationPathStep) : List String :=
  steps.foldl (fun acc s => specInsertSeq acc s.toSequence)
    (match steps with
     | [] => []
     | first :: _ => [first.fromSequence])

/-- Node for a (discovery-index, sequence) pair. -/
def mkNodeAt (p : Nat × String) : MutationNetworkNode := ⟨p.2, p.2, p.1⟩

/-- Modelled from the spec: nodes are the discovered sequences, each with its
0-based discovery order as index. -/
def specNodes (steps : List MutationPathStep) : List MutationNetworkNode :=
  (specDiscovery steps).enum.map mkNodeAt

/-- Builder state reached after discovering exactly the sequences `seq`. -/
def stOf (seq : List String) : BuildSt := ⟨seq.enum.map mkNodeAt, seq, seq.length⟩

theorem enum_append_singleton {α : Type} (l : List α) (a : α) :
    (l ++ [a]).enum = l.enum ++ [(l.length, a)] := by
  rw [List.enum_append]
  rfl

theorem insertNode_stOf (seq : List String) (s : String) :
    insertNode (stOf seq) s = stOf (specInsertSeq seq s) := by
  by_cases h : s ∈ seq
  · simp [insertNode, specInsertSeq, stOf, h]
  · simp only [insertNode, specInsertSeq, stOf, h, if_neg, if_false]
    refine congrArg₂ (fun a b => BuildSt.mk a (seq ++ [s]) b) ?_ ?_
    · rw [enum_append_singleton, List.map_append]
      rfl
    · simp

theorem buildLoop_snd (steps : List MutationPathStep) (st : BuildSt)
    (links : List MutationNetworkLink) :
    (buildLoop steps st links).2 = links ++ steps.map stepLink := by
  induction steps generalizing st links with
  | nil => simp [buildLoop]
  | cons s rest ih => simp [buildLoop, ih, stepLink]

theorem buildLoop_fst_stOf (steps : List MutationPathStep) (seq : List String)
    (links : List MutationNetworkLink) :
    (buildLoop steps (stOf seq) links).1
      = stOf (steps.foldl (fun acc s => specInsertSeq acc s.toSequence) seq) := by
  induction steps generalizing seq links with
  | nil => simp [buildLoop]
  | cons s rest ih =>
    rw [List.foldl_cons]
    show (buildLoop rest (insertNode (stOf seq) s.toSequence) _).1 = _
    rw [insertNode_stOf]
    exact ih _ _

/-- Claim C4: links correspond 1:1 and in order with steps (so link count =
step count); nodes are exactly the spec's discovery order (first step's
fromSequence, then unseen toSequences in step order); each node's index is
its 0-based discovery position. -/
theorem C4_graph_build (steps : List MutationPathStep) :
    (buildGraph steps).2 = steps.map stepLink
    ∧ (buildGraph steps).2.length = steps.length
    ∧ (buildGraph steps).1 = specNodes steps
    ∧ (buildGraph steps).1.map MutationNetworkNode.index
        = List.range (buildGraph steps).1.length := by
  have hsnd : (buildGraph steps).2 = steps.map stepLink := by
    cases steps with
    | nil => rfl
    | cons first rest =>
      show (buildLoop (first :: rest) _ []).2 = _
      rw [buildLoop_snd]
      rfl
  have hfst : (buildGraph steps).1 = specNodes steps := by
    cases steps with
    | nil => rfl
    | cons first rest =>
      show (buildLoop (first :: rest) (insertNode (stOf []) first.fromSequence) []).1.nodes = _
      rw [insertNode_stOf]
      have hins : specInsertSeq [] first.fromSequence = [first.fromSequence] := by
        simp [specInsertSeq]
      rw [hins, buildLoop_fst_stOf]
      rfl
  refine ⟨hsnd, by rw [hsnd, List.length_map], hfst, ?_⟩
  rw [hfst]
  show (List.map MutationNetworkNode.index (List.map mkNodeAt (specDiscovery steps).enum)) = _
  rw [List.map_map]
  have hcomp : (MutationNetworkNode.index ∘ mkNodeAt) = (Prod.fst : Nat × String → Nat) := by
    funext p
    rfl
  rw [hcomp, List.enum_map_fst]
  show _ = List.range (List.map mkNodeAt (specDiscovery steps).enum).length
  rw [List.length_map, List.enum_length]

/-! ## Header resolution -/

theorem findIdxAux_eq_none (name : List Char) (hs : List (List Char))
    (h : name ∉ hs) : findIdxAux name hs = none := by
  induction hs with
  | nil => rfl
  | cons x xs ih =>
    have hx : ¬ x = name := fun hEq => h (hEq ▸ List.mem_cons_self x xs)
    have hxs : name ∉ xs := fun hm => h (List.mem_cons_of_mem x hm)
    simp [findIdxAux, hx, ih hxs]

theorem findIdxAux_getD (name : List Char) (hs : List (List Char))
    (h : name ∈ hs) :
    ∃ i, findIdxAux name hs = some i ∧ hs.getD i [] = name := by
  induction hs with
  | nil => cases h
  | cons x xs ih =>
    by_cases hx : x = name
    · exact ⟨0, by simp [findIdxAux, hx], by simp [hx]⟩
    · have hmem : name ∈ xs := by
        cases List.mem_cons.mp h with
        | inl hEq => exact absurd hEq.symm hx
        | inr hm => exact hm
      obtain ⟨i, hfind, hget⟩ := ih hmem
      exact ⟨i + 1, by simp [findIdxAux, hx, hfind], by simpa using hget⟩

theorem resolveIdx_absent (hs : List (List Char)) (name : List Char) (fb : Nat)
    (h : name ∉ hs) : resolveIdx hs name fb = fb := by
  unfold resolveIdx
  rw [findIdxAux_eq_none name hs h]

theorem resolveIdx_present (hs : List (List Char)) (name : List Char) (fb : Nat)
    (h : name ∈ hs) : hs.getD (resolveIdx hs name fb) [] = name := by
  obtain ⟨i, hfind, hget⟩ := findIdxAux_getD name hs h
  unfold resolveIdx
  rw [hfind]
  exact hget

/-- Claim C5: each of the three columns is resolved independently over the
normalized header tokens; an absent name falls back to 0/1/2, a present name
resolves to a position holding that name; a header with no recognized names
still parses via positions 0/1/2, and a reordered header is honored. -/
theorem C5_header_fallback :
    (∀ (hs : List (List Char)) (name : List Char) (fb : Nat),
        name ∉ hs → resolveIdx hs name fb = fb)
    ∧ (∀ (hs : List (List Char)) (name : List Char) (fb : Nat),
        name ∈ hs → hs.getD (resolveIdx hs name fb) [] = name)
    ∧ (parseResultCsv ("colA,colB,colC\nAAAA,AAAT,7")).steps = [⟨"AAAA", "AAAT", 7⟩]
    ∧ (parseResultCsv ("To_Sequence,From_Sequence,Transition_Cost\nAAAT,AAAA,3")).steps
        = [⟨"AAAA", "AAAT", 3⟩] :=
  ⟨fun hs name fb h => resolveIdx_absent hs name fb h,
   fun hs name fb h => resolveIdx_present hs name fb h, by decide, by decide⟩

/-- Witness for C5's hypotheses at concrete headers. -/
theorem C5_header_fallback_witness :
    resolveIdx [("cola".toList), ("colb".toList)] ("from_sequence".toList) 0 = 0
    ∧ [("to_sequence".toList), ("from_sequence".toList)].getD
        (resolveIdx [("to_sequence".toList), ("from_sequence".toList)] ("from_sequence".toList) 0) []
        = ("from_sequence".toList) :=
  ⟨C5_header_fallback.1 [("cola".toList), ("colb".toList)] ("from_sequence".toList) 0 (by decide),
   C5_header_fallback.2.1 [("to_sequence".toList), ("from_sequence".toList)]
     ("from_sequence".toList) 0 (by decide)⟩

/-! ## Cost parsing -/

/-- Claim C6: the transition cost is parsed as an integer that defaults to 0
on parse failure; a missing cost column also yields 0 (via the '0' default);
the parse is total (it either fails to 0 or returns the parsed integer); and
concretely a malformed cost and a missing cost column both degrade to 0. -/
theorem C6_cost_parse :
    (∀ l : List Char, jsParseInt l = none → jsParseIntOr0 l = 0)
    ∧ (∀ l : List Char, jsParseIntOr0 l = 0 ∨ jsParseInt l = some (jsParseIntOr0 l))
    ∧ (∀ (cols : List (List Char)) (ci : Nat), cols.length ≤ ci →
        jsParseIntOr0 (cols.getD ci ['0']) = 0)
    ∧ (parseResultCsv ("From_Sequence,To_Sequence,Transition_Cost\nAAAA,AAAT,abc\nAAAT,AATT")).steps
        = [⟨"AAAA", "AAAT", 0⟩, ⟨"AAAT", "AATT", 0⟩] := by
  refine ⟨?_, ?_, ?_, by decide⟩
  · intro l h
    simp [jsParseIntOr0, h]
  · intro l
    cases h : jsParseInt l with
    | none => exact Or.inl (by simp [jsParseIntOr0, h])
    | some n => exact Or.inr (by simp [jsParseIntOr0, h])
  · intro cols ci h
    rw [List.getD_eq_default _ _ h]
    decide

/-- Witness for C6's hypotheses at concrete inputs. -/
theorem C6_cost_parse_witness :
    jsParseIntOr0 (("abc").toList) = 0
    ∧ jsParseIntOr0 ([("5".toList)].getD 2 ['0']) = 0 :=
  ⟨C6_cost_parse.1 (("abc").toList) (by decide),
   C6_cost_parse.2.2.1 [("5".toList)] 2 (by decide)⟩

/-! ## Request orchestrator (mutation-network component) -/

/-- A JS value as it appears in the error-message fallback chain:
undefined/null, a string, or an array of strings. -/
inductive JsVal
  | undef
  | str (s : String)
  | arr (ls : List String)
deriving DecidableEq, Repr

/-- JS truthiness for the values above: undefined is falsy, a string is
truthy iff non-empty, an array is always truthy. -/
def truthy : JsVal → Bool
  | JsVal.undef => false
  | JsVal.str s => !(s == "")
  | JsVal.arr _ => true

/-- The JS `||` operator on these values. -/
def jsOr (a b : JsVal) : JsVal := if truthy a then a else b

/-- The fields of a caught error the handler reads: `error.error?.detail`
and `error.message`. -/
structure JsError where
  detail : JsVal
  message : JsVal
deriving DecidableEq, Repr

def genericFailureMessage : String := "Mutation network failed"

def timeoutMessage : String :=
  "Request timed out. The file may be too large or the server is busy. Try a smaller file or try again."

/-- `Array.isArray(msg) ? msg.join(' ') : msg`. -/
def joinIfArray : JsVal → String
  | JsVal.arr ls => String.intercalate (" ") ls
  | JsVal.str s => s
  | JsVal.undef => ""

/-- `error.error?.detail || error.message || 'Mutation network failed'`,
joined with spaces when the result is an array. -/
def errMsgOf (e : JsError) : String :=
  joinIfArray (jsOr e.detail (jsOr e.message (JsVal.str genericFailureMessage)))

/-- The component fields onStart reads and writes. -/
structure ComponentState where
  uploadComplete : Bool
  savedFileName : String
  startSequence : String
  endSequence : String
  isProcessing : Bool
  processedFileName : String
  graphData : Option MutationNetworkGraphData
  errorMessage : Option String
deriving DecidableEq, Repr

/-- The canStart getter: file uploaded, saved filename and both sequences
non-blank, and no run in progress. -/
def canStart (st : ComponentState) : Bool :=
  st.uploadComplete
    && !(jsTrim st.savedFileName.toList == [])
    && !(jsTrim st.startSequence.toList == [])
    && !(jsTrim st.endSequence.toList == [])
    && !st.isProcessing

/-- Outcome of the submit call under its 120s timeout. -/
inductive SubmitOutcome
  | timedOut
  | errored (e : JsError)
  | responded (status : String) (result : String)
deriving DecidableEq, Repr

/-- Outcome of the download call under its 30s timeout. -/
inductive DownloadOutcome
  | timedOut
  | errored (e : JsError)
  | succeeded (content : String)
deriving DecidableEq, Repr

/-- What one onStart invocation did: the final component state and which
network calls were issued. -/
structure OnStartResult where
  state : ComponentState
  submitCalled : Bool
  downloadCalled : Bool
deriving DecidableEq, Repr

/-- The field resets at the top of onStart. -/
def resetForRun (st : ComponentState) : ComponentState :=
  { st with isProcessing := true, processedFileName := "", graphData := none,
            errorMessage := none }

/-- The tap after submit: record the result filename when status is 'ok' and
the filename is truthy. -/
def applySubmitTap (st : ComponentState) (status result : String) : ComponentState :=
  if status = "ok" ∧ result ≠ "" then { st with processedFileName := result } else st

/-- Effect of the download stage: timeout and error go through catchError
(setting the message), success parses the blob text into graphData. -/
def applyDownload (st : ComponentState) (dl : DownloadOutcome) : ComponentState :=
  match dl with
  | DownloadOutcome.timedOut => { st with errorMessage := some timeoutMessage }
  | DownloadOutcome.errored e => { st with errorMessage := some (errMsgOf e) }
  | DownloadOutcome.succeeded content =>
      { st with graphData := some (parseResultCsv content) }

/-- The finalize operator: clear the processing flag. -/
def finalizeRun (st : ComponentState) : ComponentState := { st with isProcessing := false }

/-- onStart, as a function of the submit and download outcomes: gate, reset,
submit with timeout, tap, conditional download with timeout, catchError
mapping timeouts to the timeout message and other errors through the detail
chain, and an unconditional finalize. -/
def onStart (st : ComponentState) (sub : SubmitOutcome) (dl : DownloadOutcome) : OnStartResult :=
  if canStart st then
    let st1 := resetForRun st
    match sub with
    | SubmitOutcome.timedOut =>
        ⟨finalizeRun { st1 with errorMessage := some timeoutMessage }, true, false⟩
    | SubmitOutcome.errored e =>
        ⟨finalizeRun { st1 with errorMessage := some (errMsgOf e) }, true, false⟩
    | SubmitOutcome.responded status result =>
        let st2 := applySubmitTap st1 status result
        if status = "ok" ∧ result ≠ "" then
          ⟨finalizeRun (applyDownload st2 dl), true, true⟩
        else
          ⟨finalizeRun st2, true, false⟩
  else ⟨st, false, false⟩

/-- A state that passes the canStart gate. -/
def sampleReadyState : ComponentState :=
  ⟨true, "upload.fasta", "AAAA", "TTTT", false, "", none, none⟩

/-- A state whose start sequence is whitespace-only, failing the gate. -/
def sampleBlankStartState : ComponentState :=
  ⟨true, "upload.fasta", "   ", "TTTT", false, "", none, none⟩

/-- Claim C7: a timeout at the submit or the download stage yields the
distinct timed-out message (never the generic one); any other failure yields
the detail message when present (space-joined when it is an array), else the
error's own message, else the generic message. -/
theorem C7_failure_messages (st : ComponentState) (e : JsError)
    (result : String) (dl : DownloadOutcome) (h : canStart st = true) :
    (onStart st SubmitOutcome.timedOut dl).state.errorMessage = some timeoutMessage
    ∧ (result ≠ "" →
        (onStart st (SubmitOutcome.responded ("ok") result) DownloadOutcome.timedOut).state.errorMessage
          = some timeoutMessage)
    ∧ (onStart st (SubmitOutcome.errored e) dl).state.errorMessage = some (errMsgOf e)
    ∧ (result ≠ "" →
        (onStart st (SubmitOutcome.responded ("ok") result) (DownloadOutcome.errored e)).state.errorMessage
          = some (errMsgOf e))
    ∧ timeoutMessage ≠ genericFailureMessage
    ∧ (∀ s : String, s ≠ "" → ∀ m : JsVal, errMsgOf ⟨JsVal.str s, m⟩ = s)
    ∧ (∀ (ls : List String) (m : JsVal),
        errMsgOf ⟨JsVal.arr ls, m⟩ = String.intercalate (" ") ls)
    ∧ (∀ m : String, m ≠ "" → errMsgOf ⟨JsVal.undef, JsVal.str m⟩ = m)
    ∧ errMsgOf ⟨JsVal.undef, JsVal.undef⟩ = genericFailureMessage := by
  refine ⟨?_, ?_, ?_, ?_, by decide, ?_, ?_, ?_, by rfl⟩
  · simp [onStart, h, finalizeRun]
  · intro hr
    simp [onStart, h, hr, finalizeRun, applyDownload, applySubmitTap]
  · simp [onStart, h, finalizeRun]
  · intro hr
    simp [onStart, h, hr, finalizeRun, applyDownload, applySubmitTap]
  · intro s hs m
    simp [errMsgOf, jsOr, truthy, joinIfArray, hs]
  · intro ls m
    rfl
  · intro m hm
    simp [errMsgOf, jsOr, truthy, joinIfArray, hm]

/-- Witness for C7 at a gate-passing state and a concrete error. -/
theorem C7_failure_messages_witness :
    (onStart sampleReadyState SubmitOutcome.timedOut (DownloadOutcome.succeeded (""))).state.errorMessage
        = some timeoutMessage
    ∧ (onStart sampleReadyState (SubmitOutcome.responded ("ok") ("r.csv")) DownloadOutcome.timedOut).state.errorMessage
        = some timeoutMessage :=
  ⟨(C7_failure_messages sampleReadyState ⟨JsVal.undef, JsVal.undef⟩ ("r.csv")
      (DownloadOutcome.succeeded ("")) (by decide)).1,
   (C7_failure_messages sampleReadyState ⟨JsVal.undef, JsVal.undef⟩ ("r.csv")
      (DownloadOutcome.succeeded ("")) (by decide)).2.1 (by decide)⟩

/-- Claim C8: when any gate condition fails (blank start sequence, no upload,
blank saved filename, blank end sequence, or a run in progress), onStart
issues no network call, surfaces no error, and leaves the state unchanged. -/
theorem C8_gate_blocks (st : ComponentState) (sub : SubmitOutcome) (dl : DownloadOutcome)
    (h : jsTrim st.startSequence.toList = []
        ∨ st.uploadComplete = false
        ∨ jsTrim st.savedFileName.toList = []
        ∨ jsTrim st.endSequence.toList = []
        ∨ st.isProcessing = true) :
    (onStart st sub dl).submitCalled = false
    ∧ (onStart st sub dl).downloadCalled = false
    ∧ (onStart st sub dl).state = st := by
  have hcs : canStart st = false := by
    rcases h with h | h | h | h | h
    · have h2 : jsTrim st.startSequence.data = [] := h
      simp [canStart, h2]
    · simp [canStart, h]
    · have h2 : jsTrim st.savedFileName.data = [] := h
      simp [canStart, h2]
    · have h2 : jsTrim st.endSequence.data = [] := h
      simp [canStart, h2]
    · simp [canStart, h]
  simp [onStart, hcs]

/-- Witness for C8 at a whitespace-only start sequence. -/
theorem C8_gate_blocks_witness :
    (onStart sampleBlankStartState SubmitOutcome.timedOut DownloadOutcome.timedOut).submitCalled = false
    ∧ (onStart sampleBlankStartState SubmitOutcome.timedOut DownloadOutcome.timedOut).downloadCalled = false
    ∧ (onStart sampleBlankStartState SubmitOutcome.timedOut DownloadOutcome.timedOut).state
        = sampleBlankStartState :=
  C8_gate_blocks sampleBlankStartState SubmitOutcome.timedOut DownloadOutcome.timedOut
    (Or.inl (by decide))

/-- Claim C9: every run that passes the gate ends with the processing flag
cleared, whatever the submit and download outcomes were. -/
theorem C9_processing_cleared (st : ComponentState) (sub : SubmitOutcome)
    (dl : DownloadOutcome) (h : canStart st = true) :
    (onStart st sub dl).state.isProcessing = false := by
  cases sub with
  | timedOut => simp [onStart, h, finalizeRun]
  | errored e => simp [onStart, h, finalizeRun]
  | responded status result =>
    by_cases hok : status = "ok" ∧ result ≠ ""
    · cases dl <;> simp [onStart, h, hok, finalizeRun, applyDownload, applySubmitTap]
    · simp [onStart, h, hok, finalizeRun, applySubmitTap]

/-- Witness for C9 at a gate-passing state and a failing download. -/
theorem C9_processing_cleared_witness :
    (onStart sampleReadyState (SubmitOutcome.responded ("ok") ("r.csv"))
        DownloadOutcome.timedOut).state.isProcessing = false :=
  C9_processing_cleared sampleReadyState (SubmitOutcome.responded ("ok") ("r.csv"))
    DownloadOutcome.timedOut (by decide)

/-- Claim C10: when the submit response has status ok and a non-empty result
filename, processedFileName is set before the download stage (by the tap)
and still holds that filename in the final state for every download outcome,
and the download stage is entered. -/
theorem C10_filename_kept (st : ComponentState) (result : String)
    (dl : DownloadOutcome) (h : canStart st = true) (hr : result ≠ "") :
    (applySubmitTap (resetForRun st) ("ok") result).processedFileName = result
    ∧ (onStart st (SubmitOutcome.responded ("ok") result) dl).state.processedFileName = result
    ∧ (onStart st (SubmitOutcome.responded ("ok") result) dl).downloadCalled = true := by
  refine ⟨by simp [applySubmitTap, hr], ?_, ?_⟩
  · cases dl <;> simp [onStart, h, hr, finalizeRun, applyDownload, applySubmitTap]
  · simp [onStart, h, hr]

/-- Witness for C10 at a gate-passing state and a timed-out download. -/
theorem C10_filename_kept_witness :
    (applySubmitTap (resetForRun sampleReadyState) ("ok") ("r.csv")).processedFileName = ("r.csv")
    ∧ (onStart sampleReadyState (SubmitOutcome.responded ("ok") ("r.csv"))
        DownloadOutcome.timedOut).state.processedFileName = ("r.csv")
    ∧ (onStart sampleReadyState (SubmitOutcome.responded ("ok") ("r.csv"))
        DownloadOutcome.timedOut).downloadCalled = true :=
  C10_filename_kept sampleReadyState ("r.csv") DownloadOutcome.timedOut (by decide) (by decide)
